import Mathlib

/-!
Verification of the ledger-submission client (ChainSignalsClient) of the
aisignals repository.  The JavaScript class is shallowly embedded: each
method becomes a Lean function over an explicit client state, with the
JSON-RPC endpoint abstracted as a deterministic environment (ChainEnv) and
every outgoing JSON-RPC invocation recorded in a trace of RpcMethod values.
BigInt arithmetic is modelled on Nat (all quantities involved are
non-negative), JavaScript Number values that are range-checked are modelled
on the rationals with none standing for NaN or an infinity, and JavaScript
strings are modelled on Lean strings (the strings involved are ASCII, where
UTF-16 length, code-point length and byte length coincide).
-/

/-- Whitespace predicate used to model JavaScript String.prototype.trim
(the ASCII part of the WhiteSpace and LineTerminator productions). -/
def isJsWhitespace (c : Char) : Bool :=
  c = ' ' || c = '\t' || c = '\n' || c = '\x0d' || c = '\x0c' || c = '\x0b'

/-- Trim leading and trailing JS whitespace from a list of characters. -/
def jsTrimList (l : List Char) : List Char :=
  ((l.dropWhile isJsWhitespace).reverse.dropWhile isJsWhitespace).reverse

/-- Model of JavaScript String.prototype.trim. -/
def jsTrim (s : String) : String :=
  ⟨jsTrimList s.data⟩

/-- Model of the JavaScript string length (UTF-16 units; the inputs of
interest are ASCII, where this equals the number of characters). -/
def jsLength (s : String) : Nat :=
  s.data.length

/-- ASCII lower-casing of one character (models the effect of
String.prototype.toLowerCase on the ASCII inputs considered here). -/
def asciiLower (c : Char) : Char :=
  if 'A' ≤ c && c ≤ 'Z' then Char.ofNat (c.toNat + 32) else c

/-- Model of JavaScript String.prototype.toLowerCase on ASCII data. -/
def jsToLower (s : String) : String :=
  ⟨s.data.map asciiLower⟩

/-- Character-list prefix test (used to model anchored regular expressions
and startsWith checks on URLs). -/
def hasPre : List Char → List Char → Bool
  | [], _ => true
  | _ :: _, [] => false
  | p :: ps, c :: cs => p = c && hasPre ps cs

/-- Case-insensitive anchored prefix test on strings. -/
def startsWithCI (pre s : String) : Bool :=
  hasPre pre.data (s.data.map asciiLower)

/-- Association-list lookup, modelling the JavaScript Map get/has pair used
for the per-process read caches. -/
def assocGet {κ ν : Type} [DecidableEq κ] (k : κ) : List (κ × ν) → Option ν
  | [] => none
  | (k', v) :: rest => if k = k' then some v else assocGet k rest

/-- Last k elements of a list, in order.  Used to state what walking an id
list newest-to-oldest and re-reversing produces. -/
def takeLast {α : Type} (k : Nat) (l : List α) : List α :=
  l.drop (l.length - k)

/-- Source function clampBigInt(v, min, max): if (v < min) return min;
if (v > max) return max; return v. -/
def clampBigInt (v lo hi : Nat) : Nat :=
  if v < lo then lo else if hi < v then hi else v

/-- One gwei in wei.  In postSignal the priority fee resolves to
parseUnits(String(1), "gwei") on every run, because this.priorityFeeGwei is
never assigned anywhere in the class, so Number.isFinite(this.priorityFeeGwei)
is false and the default prioGwei = 1 is always taken. -/
def oneGweiWei : Nat := 1000000000

/-- A JSON-RPC level error as the client classifies it: invalidRequest is
the result of isRpcInvalidRequest (inner or outer code -32600, or a message
matching /invalid request/i). -/
structure RpcErr where
  invalidRequest : Bool
deriving DecidableEq

/-- The parameter shapes tried for eth_getTransactionCount:
[addr, "pending"], [addr, "latest"], [addr], and [addr, blockNumberHex]. -/
inductive CountParam where
  | pending
  | latest
  | omitted
  | byBlock
deriving DecidableEq

/-- The JSON-RPC methods postSignal and the read path can invoke, recorded
in the call trace. -/
inductive RpcMethod where
  | getTransactionCount
  | chainIdQ
  | estimateGas
  | ethCall
  | feeHistory
  | gasPrice
  | sendRawTransaction
  | getTransactionReceipt
  | getTransactionByHash
  | blockNumber
deriving DecidableEq

/-- Source method _getTransactionCount(address, blockTag = "pending"),
as called from _allocNonce (blockTag = "pending"): it loops over the

  tryParams = [[addr, blockTag], [addr, "latest"], [addr]]

list, returning the first successful result; EVERY failure (of any kind)
falls through to the next shape, and after all three have failed, the last
error is thrown.  The second component records which shapes were tried. -/
def getTransactionCount (txCount : CountParam → Except RpcErr Nat) :
    Except RpcErr Nat × List CountParam :=
  match txCount .pending with
  | .ok n => (.ok n, [.pending])
  | .error _ =>
    match txCount .latest with
    | .ok n => (.ok n, [.pending, .latest])
    | .error _ =>
      match txCount .omitted with
      | .ok n => (.ok n, [.pending, .latest, .omitted])
      | .error e3 => (.error e3, [.pending, .latest, .omitted])

/-- Source method _getNonce(address): the four-rung fallback ladder that is
gated on isRpcInvalidRequest: pending, then latest, then no tag, then
eth_blockNumber followed by an explicit block quantity.  A failure that is
not a request-shape rejection is rethrown immediately.  This method is
invoked only from _waitForPendingNonceBump, not from nonce allocation. -/
def getNonce (txCount : CountParam → Except RpcErr Nat)
    (blockNumber : Except RpcErr Nat) : Except RpcErr Nat :=
  match txCount .pending with
  | .ok n => .ok n
  | .error e0 =>
    if !e0.invalidRequest then .error e0 else
    match txCount .latest with
    | .ok n => .ok n
    | .error e1 =>
      if !e1.invalidRequest then .error e1 else
      match txCount .omitted with
      | .ok n => .ok n
      | .error e2 =>
        if !e2.invalidRequest then .error e2 else
        match blockNumber with
        | .error e => .error e
        | .ok _ => txCount .byBlock

/-- A decoded on-chain signal record, as produced by getSignalById from the
tuple returned by the getSignal(uint256) contract view. -/
structure StoredSignal where
  trader : String
  strategy : String
  asset : String
  message : String
  target : Int
  leverage : Int
  weight : Int
  timestamp : Nat
deriving DecidableEq

/-- An element of the list returned by getRecentSignalsForStrategy:
{ timestamp, asset, target, message }. -/
structure SigEntry where
  timestamp : Nat
  asset : String
  target : Int
  message : String
deriving DecidableEq

/-- The projection pushed into the out array by getRecentSignalsForStrategy. -/
def entryOf (s : StoredSignal) : SigEntry :=
  ⟨s.timestamp, s.asset, s.target, s.message⟩

/-- Errors thrown by the embedded methods: validation marks a plain Error
thrown locally before (or instead of) any network activity, rpc marks a
propagated JSON-RPC failure. -/
inductive JsErr where
  | validation (msg : String)
  | rpc (e : RpcErr)
deriving DecidableEq

/-- The deterministic endpoint model: what each JSON-RPC call would answer
during the run under consideration. -/
structure ChainEnv where
  txCount : CountParam → Except RpcErr Nat
  chainIdResult : Except RpcErr (Option Int)
  estimateGas : Option Nat
  postFee : Option Nat
  feeHistoryOk : Bool
  baseFee : Option Nat
  gasPrice : Except RpcErr Nat
  sendRaw : Except RpcErr String
  receiptPoll : Option Nat
  traderIds : String → List Nat
  signalById : Nat → StoredSignal

/-- CHAIN_TX_TYPE preference: legacy, eip1559, or auto-detection. -/
inductive TxPref where
  | legacy
  | eip1559
  | auto
deriving DecidableEq

/-- The constructor-resolved configuration fields that postSignal and the
read path consult.  gasPriceFixedWei is some w exactly when
Number.isFinite(gasPriceGwei) && gasPriceGwei > 0, with w the configured
price converted to wei; mulScaled is Math.round(gasPriceMultiplier * 1000);
maxWei is parseUnits(String(maxGasPriceGwei), "gwei"). -/
structure ClientConfig where
  chainId : Int
  walletAddress : String
  gasPriceFixedWei : Option Nat
  mulScaled : Nat
  maxWei : Nat
  waitReceipt : Bool
  txTypePref : TxPref
deriving DecidableEq

/-- The mutable per-instance state of the client that the claims concern:
the local nonce cursor, the cached chain id and fee-mode probe result, and
the two read caches. -/
structure ClientState where
  nextNonce : Option Nat
  remoteChainId : Option Int
  supports1559 : Option Bool
  traderSignalIdsCache : List (String × List Nat)
  signalByIdCache : List (Nat × StoredSignal)
deriving DecidableEq

/-- Source method _allocNonce(address): when the cursor is null, fetch the
pending transaction count through _getTransactionCount, set the cursor to
its successor and return the fetched value; otherwise return the cursor and
advance it.  The trace records the eth_getTransactionCount attempts. -/
def allocNonce (env : ChainEnv) (st : ClientState) :
    Except JsErr Nat × ClientState × List RpcMethod :=
  match st.nextNonce with
  | some n => (.ok n, { st with nextNonce := some (n + 1) }, [])
  | none =>
    match getTransactionCount env.txCount with
    | (.ok n, ps) =>
      (.ok n, { st with nextNonce := some (n + 1) },
        ps.map (fun _ => RpcMethod.getTransactionCount))
    | (.error e, ps) =>
      (.error (.rpc e), st, ps.map (fun _ => RpcMethod.getTransactionCount))

/-- N back-to-back nonce allocations against the same client instance.
Returns the allocated nonces in order, the final state, and the total
number of endpoint queries issued for transaction counts. -/
def allocRun (env : ChainEnv) : Nat → ClientState → List Nat × ClientState × Nat
  | 0, st => ([], st, 0)
  | n + 1, st =>
    match allocNonce env st with
    | (.ok nonce, st', tr) =>
      let rest := allocRun env n st'
      (nonce :: rest.1, rest.2.1, tr.length + rest.2.2)
    | (.error _, st', tr) => ([], st', tr.length)

/-- Source method _chooseBaseGasPriceWei: if a fixed price is configured,
clamp it to [1, maxWei] without any endpoint query; otherwise fetch the
suggested price (eth_gasPrice), scale it by max(1, round(multiplier*1000))
over 1000 in integer arithmetic, and clamp to the same range. -/
def chooseBaseGasPriceWei (env : ChainEnv) (cfg : ClientConfig) :
    Except JsErr Nat × List RpcMethod :=
  match cfg.gasPriceFixedWei with
  | some fixed => (.ok (clampBigInt fixed 1 cfg.maxWei), [])
  | none =>
    match env.gasPrice with
    | .error e => (.error (.rpc e), [.gasPrice])
    | .ok s =>
      let scaled := max 1 cfg.mulScaled
      (.ok (clampBigInt (s * scaled / 1000) 1 cfg.maxWei), [.gasPrice])

/-- The fee computation of the fee-market branch of postSignal:
maxFeePerGas = clamp(baseFee + priority, 1, maxWei) and
maxPriorityFeePerGas = clamp(priority, 1, maxFeePerGas). -/
def feeMarketFees (baseFee prioWei maxWei : Nat) : Nat × Nat :=
  let maxFeePerGas := clampBigInt (baseFee + prioWei) 1 maxWei
  let maxPriorityFeePerGas := clampBigInt prioWei 1 maxFeePerGas
  (maxFeePerGas, maxPriorityFeePerGas)

/-- Source method _getRemoteChainId: cached after the first resolution; a
successful hex result from eth_chainId is adopted, any failure or non-hex
result silently falls back to the configured chain id. -/
def getRemoteChainId (env : ChainEnv) (cfg : ClientConfig) (st : ClientState) :
    Int × ClientState × List RpcMethod :=
  match st.remoteChainId with
  | some c => (c, st, [])
  | none =>
    match env.chainIdResult with
    | .ok (some n) => (n, { st with remoteChainId := some n }, [.chainIdQ])
    | _ => (cfg.chainId, { st with remoteChainId := some cfg.chainId }, [.chainIdQ])

/-- Source method _getChainId: a finite positive configured chain id is
used directly; otherwise the remote id is resolved (and cached). -/
def getChainId (env : ChainEnv) (cfg : ClientConfig) (st : ClientState) :
    Int × ClientState × List RpcMethod :=
  if 0 < cfg.chainId then (cfg.chainId, st, [])
  else getRemoteChainId env cfg st

/-- Source method _detectSupports1559: cached; an explicit CHAIN_TX_TYPE
override is honored without probing, otherwise eth_feeHistory is probed
once and its success decides the mode. -/
def detectSupports1559 (env : ChainEnv) (cfg : ClientConfig) (st : ClientState) :
    Bool × ClientState × List RpcMethod :=
  match st.supports1559 with
  | some b => (b, st, [])
  | none =>
    match cfg.txTypePref with
    | .legacy => (false, { st with supports1559 := some false }, [])
    | .eip1559 => (true, { st with supports1559 := some true }, [])
    | .auto =>
      (env.feeHistoryOk, { st with supports1559 := some env.feeHistoryOk }, [.feeHistory])

/-- The position-intent argument as postSignal receives it: a JavaScript
number, a bigint, or anything else (normalized through String(...)). -/
inductive JTarget where
  | num (n : Int)
  | big (n : Int)
  | str (s : String)
deriving DecidableEq

/-- The submission request consumed by postSignal, after the alias
normalization of the strategy/message field names (strategy resolves the
strategy/strategyName/strategy_name/strategyTitle/name chain, message the
message ?? comment chain; absent leverage and weight default to 1).
Numbers are rationals with none standing for a value whose Number coercion
is NaN or infinite. -/
structure SignalInput where
  strategy : String
  asset : String
  message : String
  target : JTarget
  leverage : Option ℚ
  weight : Option ℚ
deriving DecidableEq

/-- The validated arguments encoded into the postSignal calldata. -/
structure TxCall where
  strat : String
  asset : String
  msg : String
  targetEnum : Int
  lev : ℚ
  w : ℚ
deriving DecidableEq

/-- The target normalization of postSignal: a number or bigint is passed
through UNCHECKED; any other value is stringified, trimmed, lower-cased and
must read long, short, 0 or 1. -/
def normalizeTarget : JTarget → Except JsErr Int
  | .num n => .ok n
  | .big n => .ok n
  | .str s =>
    let tstr := jsToLower (jsTrim s)
    if tstr = "long" || tstr = "0" then .ok 0
    else if tstr = "short" || tstr = "1" then .ok 1
    else .error (.validation "Invalid target: expected Long/Short/0/1")

/-- The input validation prefix of postSignal, in source order: trimmed
strategy 1..30 chars, trimmed asset 1..10 chars, trimmed message at most
280 chars, target normalization, finite leverage in [1,5], finite weight in
[1,100].  The first violation throws; on success the encoded arguments are
returned. -/
def validateSignal (p : SignalInput) : Except JsErr TxCall :=
  let strat := jsTrim p.strategy
  if jsLength strat < 1 ∨ 30 < jsLength strat then
    .error (.validation "Invalid strategy: must be 1-30 chars")
  else
    let a := jsTrim p.asset
    if jsLength a < 1 ∨ 10 < jsLength a then
      .error (.validation "Invalid asset: must be 1-10 chars")
    else
      let msg := jsTrim p.message
      if 280 < jsLength msg then
        .error (.validation "Invalid message: max 280 chars")
      else
        match normalizeTarget p.target with
        | .error e => .error e
        | .ok te =>
          match p.leverage with
          | none => .error (.validation "Invalid leverage: must be 1-5")
          | some lev =>
            if lev < 1 ∨ 5 < lev then
              .error (.validation "Invalid leverage: must be 1-5")
            else
              match p.weight with
              | none => .error (.validation "Invalid weight: must be 1-100")
              | some w =>
                if w < 1 ∨ 100 < w then
                  .error (.validation "Invalid weight: must be 1-100")
                else .ok ⟨strat, a, msg, te, lev, w⟩

/-- The amended validation contract, written from the spec sentence with
the two code-forced changes: lengths are measured after trimming, and
numeric or bigint position intents are accepted without a range check
(only stringly intents must denote Long, Short, 0 or 1). -/
def targetAccepted : JTarget → Prop
  | .num _ => True
  | .big _ => True
  | .str s =>
    jsToLower (jsTrim s) = "long" ∨ jsToLower (jsTrim s) = "0" ∨
    jsToLower (jsTrim s) = "short" ∨ jsToLower (jsTrim s) = "1"

/-- The conjunction of the amended validation ranges (see targetAccepted
for the position-intent clause). -/
def specValidAmended (p : SignalInput) : Prop :=
  (1 ≤ jsLength (jsTrim p.strategy) ∧ jsLength (jsTrim p.strategy) ≤ 30) ∧
  (1 ≤ jsLength (jsTrim p.asset) ∧ jsLength (jsTrim p.asset) ≤ 10) ∧
  jsLength (jsTrim p.message) ≤ 280 ∧
  targetAccepted p.target ∧
  (∃ l, p.leverage = some l ∧ 1 ≤ l ∧ l ≤ 5) ∧
  (∃ w, p.weight = some w ∧ 1 ≤ w ∧ w ≤ 100)

/-- Source method getSignalById: per-id cache consulted first; on a miss
the entry is fetched by one eth_call, decoded and cached. -/
def getSignalById (env : ChainEnv) (st : ClientState) (id : Nat) :
    StoredSignal × ClientState × List RpcMethod :=
  match assocGet id st.signalByIdCache with
  | some s => (s, st, [])
  | none =>
    let s := env.signalById id
    (s, { st with signalByIdCache := (id, s) :: st.signalByIdCache }, [.ethCall])

/-- Source method getTraderSignalIds: rejects a blank trader, consults the
per-account cache, and on a miss fetches the full id list with one eth_call
and caches it for the process lifetime. -/
def getTraderSignalIds (env : ChainEnv) (st : ClientState) (trader : String) :
    Except JsErr (List Nat) × ClientState × List RpcMethod :=
  let t := jsTrim trader
  if t = "" then
    (.error (.validation "getTraderSignalIds: missing trader address"), st, [])
  else
    match assocGet t st.traderSignalIdsCache with
    | some ids => (.ok ids, st, [])
    | none =>
      let ids := env.traderIds t
      (.ok ids, { st with traderSignalIdsCache := (t, ids) :: st.traderSignalIdsCache },
        [.ethCall])

/-- The newest-to-oldest collection loop of getRecentSignalsForStrategy,
run on the reversed id list: stop when the id list is exhausted or the
wanted count is reached; an entry whose trimmed strategy differs from the
(already trimmed) query label is skipped. -/
def collectRecent (env : ChainEnv) (strategy : String) :
    List Nat → Nat → ClientState → List SigEntry × ClientState × List RpcMethod
  | [], _, st => ([], st, [])
  | _ :: _, 0, st => ([], st, [])
  | id :: rest, want + 1, st =>
    let r := getSignalById env st id
    if jsTrim r.1.strategy ≠ strategy then
      let r' := collectRecent env strategy rest (want + 1) r.2.1
      (r'.1, r'.2.1, r.2.2 ++ r'.2.2)
    else
      let r' := collectRecent env strategy rest want r.2.1
      (entryOf r.1 :: r'.1, r'.2.1, r.2.2 ++ r'.2.2)

/-- The stateless counterpart of collectRecent, resolving ids through a
pure lookup function. -/
def pureWalk (f : Nat → StoredSignal) (strategy : String) :
    List Nat → Nat → List SigEntry
  | [], _ => []
  | _ :: _, 0 => []
  | id :: rest, want + 1 =>
    if jsTrim (f id).strategy ≠ strategy then pureWalk f strategy rest (want + 1)
    else entryOf (f id) :: pureWalk f strategy rest want

/-- Source method getRecentSignalsForStrategy({strategyName, n, trader}):
want = max(0, n); a want of zero or a blank trimmed strategy returns [];
the trader defaults to the wallet address; the cached id list is walked
newest-to-oldest collecting up to want entries whose trimmed strategy label
equals the trimmed query, and the result is re-reversed to oldest-first. -/
def getRecentSignalsForStrategy (env : ChainEnv) (cfg : ClientConfig)
    (strategyName : String) (n : Int) (trader : String) (st : ClientState) :
    Except JsErr (List SigEntry) × ClientState × List RpcMethod :=
  let want := (max 0 n).toNat
  if want = 0 then (.ok [], st, [])
  else
    let strategy := jsTrim strategyName
    if strategy = "" then (.ok [], st, [])
    else
      let addr := jsTrim (if trader = "" then cfg.walletAddress else trader)
      match getTraderSignalIds env st addr with
      | (.error e, st', tr) => (.error e, st', tr)
      | (.ok ids, st', tr) =>
        if ids = [] then (.ok [], st', tr)
        else
          let r := collectRecent env strategy ids.reverse want st'
          (.ok r.1.reverse, r.2.1, tr ++ r.2.2)

/-- The amended read contract, written from the spec sentence with the
code-forced change that matching is on trimmed labels: the result is the
last min(count, matches) elements, oldest first, of the account id list
filtered to entries whose trimmed strategy label equals the trimmed query
(empty when the trimmed query is blank). -/
def recentEntriesSpec (env : ChainEnv) (strategyName : String) (n : Int)
    (key : String) : List SigEntry :=
  if jsTrim strategyName = "" then []
  else
    takeLast (max 0 n).toNat
      (((env.traderIds key).filter
          (fun id => jsTrim (env.signalById id).strategy == jsTrim strategyName)).map
        (fun id => entryOf (env.signalById id)))

/-- The per-id cache holds only values that agree with the ledger model. -/
def cacheFaithful (env : ChainEnv) (l : List (Nat × StoredSignal)) : Prop :=
  ∀ pr ∈ l, pr.2 = env.signalById pr.1

/-- Fee fields of the built transaction request: a legacy gasPrice or a
fee-market maxFeePerGas / maxPriorityFeePerGas pair. -/
inductive FeeFields where
  | legacy (gasPrice : Nat)
  | market (maxFeePerGas maxPriorityFeePerGas : Nat)
deriving DecidableEq

/-- The transaction request assembled and signed by postSignal (the fields
the claims are about; to/from/data are fixed by the configuration). -/
structure TxRequest where
  nonce : Nat
  chainId : Int
  gasLimit : Nat
  value : Nat
  fees : FeeFields
deriving DecidableEq

/-- The shapes postSignal can return on success:
immediate models return {txHash, nonce, chainId} (the early return taken
when !this.waitForReceipt holds), broadcastStatus models
return {txHash, status: "broadcast", nonce, chainId}, mined models
return {txHash, nonce, chainId, receipt}, stillPending models
return {txHash, nonce, chainId, pending: true}. -/
inductive PostOutcome where
  | immediate (txHash : String) (nonce : Nat) (chainId : Int)
  | broadcastStatus (txHash : String) (nonce : Nat) (chainId : Int)
  | mined (txHash : String) (nonce : Nat) (chainId : Int) (receiptStatus : Nat)
  | stillPending (txHash : String) (nonce : Nat) (chainId : Int)
deriving DecidableEq

/-- Truthiness of this.waitForReceipt in the guard
if (!this.waitForReceipt) of postSignal.  The property lookup resolves to
the waitForReceipt METHOD of the class (a function object), never to the
waitReceipt configuration flag, so it is truthy on every run. -/
def receiptWaitGuard : Bool := true

/-- Number(this.receiptTimeoutSec ?? 0) in postSignal.  The field
receiptTimeoutSec is never assigned anywhere in the class, so the
expression resolves to 0 on every run. -/
def receiptTimeoutSecResolved : Int := 0

/-- The broadcast tail of postSignal: sign (local), send the raw
transaction, then the receipt-wait epilogue.  The poll loop of the epilogue is
modelled by a single receipt lookup since the timeout guard makes it
unreachable (receiptTimeoutSecResolved is 0). -/
def sendAndFinish (env : ChainEnv) (txReq : TxRequest) (st : ClientState)
    (tr : List RpcMethod) : Except JsErr PostOutcome × ClientState × List RpcMethod :=
  match env.sendRaw with
  | .error e => (.error (.rpc e), st, tr ++ [.sendRawTransaction])
  | .ok txHash =>
    if receiptWaitGuard = false then
      (.ok (.immediate txHash txReq.nonce txReq.chainId), st, tr ++ [.sendRawTransaction])
    else if receiptTimeoutSecResolved ≤ 0 then
      (.ok (.broadcastStatus txHash txReq.nonce txReq.chainId), st,
        tr ++ [.sendRawTransaction])
    else
      match env.receiptPoll with
      | some status =>
        (.ok (.mined txHash txReq.nonce txReq.chainId status), st,
          tr ++ [.sendRawTransaction, .getTransactionReceipt])
      | none =>
        (.ok (.stillPending txHash txReq.nonce txReq.chainId), st,
          tr ++ [.sendRawTransaction, .getTransactionReceipt])

/-- The fee-mode resolution, fee computation and broadcast of postSignal,
after the nonce has been allocated: detect fee-market support, then either
build a type-2 request from the latest base fee (falling back to the legacy
suggested price) with the always-1-gwei priority fee, or build a legacy
request priced by _chooseBaseGasPriceWei, and send it. -/
def feePhaseAndSend (env : ChainEnv) (cfg : ClientConfig) (nonce : Nat)
    (chainId : Int) (gasLimit valueWei : Nat) (st : ClientState)
    (tr : List RpcMethod) : Except JsErr PostOutcome × ClientState × List RpcMethod :=
  let d := detectSupports1559 env cfg st
  let st1 := d.2.1
  let tr1 := tr ++ d.2.2
  if d.1 then
    match env.baseFee with
    | some baseFee =>
      let fees := feeMarketFees baseFee oneGweiWei cfg.maxWei
      sendAndFinish env ⟨nonce, chainId, gasLimit, valueWei, .market fees.1 fees.2⟩
        st1 (tr1 ++ [.feeHistory])
    | none =>
      match env.gasPrice with
      | .error e => (.error (.rpc e), st1, tr1 ++ [.feeHistory, .gasPrice])
      | .ok s =>
        let fees := feeMarketFees s oneGweiWei cfg.maxWei
        sendAndFinish env ⟨nonce, chainId, gasLimit, valueWei, .market fees.1 fees.2⟩
          st1 (tr1 ++ [.feeHistory, .gasPrice])
  else
    match chooseBaseGasPriceWei env cfg with
    | (.error e, trF) => (.error e, st1, tr1 ++ trF)
    | (.ok g, trF) =>
      sendAndFinish env ⟨nonce, chainId, gasLimit, valueWei, .legacy g⟩ st1 (tr1 ++ trF)

/-- Source method postSignal: validate the request (throwing before any
network call on a violation), resolve the chain id, allocate the nonce
locally, estimate gas with the +22 percent buffer (falling back to 300000),
best-effort fetch the posting fee, choose and compute fees, sign locally
and broadcast, then run the (ineffective) receipt-wait epilogue. -/
def postSignal (env : ChainEnv) (cfg : ClientConfig) (p : SignalInput)
    (st : ClientState) : Except JsErr PostOutcome × ClientState × List RpcMethod :=
  match validateSignal p with
  | .error e => (.error e, st, [])
  | .ok _call =>
    let c := getChainId env cfg st
    match allocNonce env c.2.1 with
    | (.error e, st2, tr2) => (.error e, st2, c.2.2 ++ tr2)
    | (.ok nonce, st2, tr2) =>
      let gasLimit := (env.estimateGas.getD 300000) * 122 / 100
      let valueWei := env.postFee.getD 0
      feePhaseAndSend env cfg nonce c.1 gasLimit valueWei st2
        (c.2.2 ++ tr2 ++ [.estimateGas, .ethCall])

/-- Source method _waitForTxInNode(txHash): bounded polling of
eth_getTransactionByHash (attempt index passed to the lookup model).  The
method exists in the class but is never invoked by postSignal. -/
def waitForTxInNode (byHash : Nat → Option Unit) : Nat → Nat → Option Unit
  | _, 0 => none
  | i, rem + 1 =>
    match byHash i with
    | some t => some t
    | none => waitForTxInNode byHash (i + 1) rem

/-- The scheme rejection of the constructor: the regular expression
/^wss?:\/\//i applied to the endpoint URL. -/
def wsSchemeRejected (url : String) : Bool :=
  startsWithCI "ws://" url || startsWithCI "wss://" url

/-- The URL checks the ChainSignalsClient constructor actually performs:
must("CHAIN_RPC_URL", url) throws on an empty (falsy) URL, then a URL
matching /^wss?:\/\//i is rejected.  No other scheme check exists. -/
def constructorRejectsUrl (url : String) : Bool :=
  decide (url.data = []) || wsSchemeRejected url

/-- The spec-side predicate: the URL begins, case-insensitively, with
http:// or https://. -/
def beginsWithHttp (url : String) : Bool :=
  startsWithCI "http://" url || startsWithCI "https://" url

/-! Concrete fixtures used by witnesses and counterexamples. -/

/-- A benign stored signal used as the default ledger content. -/
def sigDefault : StoredSignal :=
  ⟨"0xT", "S", "BTC", "m", 0, 1, 100, 5⟩

/-- A healthy endpoint fixture: every query answers in the simplest
successful shape. -/
def env0 : ChainEnv where
  txCount := fun _ => .ok 7
  chainIdResult := .ok (some 167012)
  estimateGas := some 100000
  postFee := some 0
  feeHistoryOk := true
  baseFee := some 2000000000
  gasPrice := .ok 3000000000
  sendRaw := .ok "0xabc"
  receiptPoll := some 0
  traderIds := fun _ => [0]
  signalById := fun _ => sigDefault

/-- A configuration with the receipt wait requested
(CHAIN_WAIT_RECEIPT=true) and a fixed gas price. -/
def cfg0 : ClientConfig :=
  ⟨167012, "0xW", some 2000000000, 1000, 50000000000000, true, .auto⟩

/-- A freshly constructed client state: null nonce cursor, nothing
resolved, empty read caches. -/
def st0 : ClientState :=
  ⟨none, none, none, [], []⟩

/-- A fully valid submission request. -/
def p0 : SignalInput :=
  ⟨"BTC gpt-4.1-mini v1", "BTC", "going long", .str "Long", some 1, some 100⟩

/-- A request whose message is exactly 281 space characters: it exceeds
280 characters, but trims to the empty string. -/
def ex4 : SignalInput :=
  ⟨"s", "a", ⟨List.replicate 281 ' '⟩, .str "long", some 1, some 1⟩

/-- A request whose message is 281 non-whitespace characters. -/
def ex4b : SignalInput :=
  ⟨"s", "a", ⟨List.replicate 281 'a'⟩, .str "long", some 1, some 1⟩

/-- A request whose position intent is the JavaScript number 2, which
denotes neither Long (0) nor Short (1). -/
def ex5 : SignalInput :=
  ⟨"s", "a", "", .num 2, some 1, some 1⟩

/-- A transaction-count oracle whose pending-tag query fails with an error
that is NOT a request-shape rejection (for example a timeout), while the
latest-tag query succeeds. -/
def c6Oracle : CountParam → Except RpcErr Nat
  | .pending => .error ⟨false⟩
  | _ => .ok 5

/-- A transaction-count oracle that rejects every parameter shape with a
request-shape error. -/
def c6AllFail : CountParam → Except RpcErr Nat :=
  fun _ => .error ⟨true⟩

/-- A ledger fixture with one entry whose stored strategy label carries a
trailing space. -/
def env7 : ChainEnv where
  txCount := fun _ => .ok 0
  chainIdResult := .ok (some 1)
  estimateGas := some 100000
  postFee := some 0
  feeHistoryOk := true
  baseFee := some 1
  gasPrice := .ok 1
  sendRaw := .ok "0xabc"
  receiptPoll := none
  traderIds := fun t => if t = "0xT" then [0] else []
  signalById := fun _ => ⟨"0xT", "BTC ", "X", "m", 0, 1, 100, 7⟩

/-- A five-entry ledger fixture: entries 0..4, of which 0, 2 and 4 carry
the strategy label A and 1 and 3 carry the label B. -/
def env7w : ChainEnv where
  txCount := fun _ => .ok 0
  chainIdResult := .ok (some 1)
  estimateGas := some 100000
  postFee := some 0
  feeHistoryOk := true
  baseFee := some 1
  gasPrice := .ok 1
  sendRaw := .ok "0xabc"
  receiptPoll := none
  traderIds := fun t => if t = "0xT" then [0, 1, 2, 3, 4] else []
  signalById := fun id =>
    if id % 2 = 0 then ⟨"0xT", "A", "BTC", "m", 0, 1, 100, 10 + id⟩
    else ⟨"0xT", "B", "ETH", "m", 1, 1, 100, 10 + id⟩

/-- A client state holding a cached id list for account 0xT. -/
def st10 : ClientState :=
  ⟨some 3, some 1, some false, [("0xT", [0, 1])], []⟩

/-! ## Helper lemmas -/

theorem clampBigInt_one_le {v hi : Nat} (h : 1 ≤ hi) :
    1 ≤ clampBigInt v 1 hi ∧ clampBigInt v 1 hi ≤ hi := by
  unfold clampBigInt
  split_ifs <;> omega

theorem clampBigInt_eq_hi {v hi : Nat} (hlt : hi < v) (h1 : 1 ≤ hi) :
    clampBigInt v 1 hi = hi := by
  unfold clampBigInt
  split_ifs <;> omega

theorem allocRun_from_some (env : ChainEnv) :
    ∀ (n : Nat) (st : ClientState) (c : Nat), st.nextNonce = some c →
      allocRun env n st = (List.range' c n, { st with nextNonce := some (c + n) }, 0) := by
  intro n
  induction n with
  | zero =>
    intro st c h
    rcases st with ⟨a, b, d, e, f⟩
    simp only [ClientState.nextNonce] at h
    simp [allocRun, h]
  | succ n ih =>
    intro st c h
    have h1 : allocNonce env st = (.ok c, { st with nextNonce := some (c + 1) }, []) := by
      unfold allocNonce
      rw [h]
    simp only [allocRun, h1]
    rw [ih { st with nextNonce := some (c + 1) } (c + 1) rfl]
    have h2 : c + 1 + n = c + (n + 1) := by omega
    rw [h2]
    simp [List.range'_succ]

theorem allocRun_from_none (env : ChainEnv) (st : ClientState) (initial n : Nat)
    (hfetch : env.txCount CountParam.pending = Except.ok initial)
    (h0 : st.nextNonce = none) :
    allocRun env (n + 1) st =
      (List.range' initial (n + 1), { st with nextNonce := some (initial + (n + 1)) }, 1) := by
  have hg : getTransactionCount env.txCount = (.ok initial, [.pending]) := by
    unfold getTransactionCount
    rw [hfetch]
  have h1 : allocNonce env st =
      (.ok initial, { st with nextNonce := some (initial + 1) },
        [RpcMethod.getTransactionCount]) := by
    unfold allocNonce
    rw [h0, hg]
    rfl
  simp only [allocRun, h1]
  rw [allocRun_from_some env n { st with nextNonce := some (initial + 1) } (initial + 1) rfl]
  have h2 : initial + 1 + n = initial + (n + 1) := by omega
  rw [h2]
  simp [List.range'_succ]

/-! ## Claim theorems -/

/-- C1: for every sequence of N nonce allocations against the same client
instance, starting from a null cursor, the allocated nonces are exactly
initial, initial+1, ..., initial+N-1 (where initial is the pending
transaction count fetched on the first allocation) with no repeats, the
endpoint is queried exactly once (on the first allocation) and never again,
and the cursor ends at initial+N, never having been decremented. -/
theorem nonce_allocator_sequence (env : ChainEnv) (initial N : Nat) (st : ClientState)
    (hfetch : env.txCount CountParam.pending = Except.ok initial)
    (h0 : st.nextNonce = none) :
    (allocRun env N st).1 = List.range' initial N ∧
    (allocRun env N st).1.Nodup ∧
    (allocRun env N st).2.2 = min N 1 ∧
    (allocRun env N st).2.1.nextNonce = if N = 0 then none else some (initial + N) := by
  cases N with
  | zero =>
    refine ⟨rfl, ?_, rfl, ?_⟩
    · simp [allocRun]
    · simpa [allocRun] using h0
  | succ n =>
    rw [allocRun_from_none env st initial n hfetch h0]
    refine ⟨rfl, List.nodup_range' initial (n + 1), ?_, ?_⟩
    · show 1 = min (n + 1) 1
      omega
    · simp

/-- Witness for C1 at a concrete healthy endpoint: three back-to-back
allocations from a fresh client yield nonces 7, 8, 9, one endpoint query,
and a final cursor of 10. -/
theorem nonce_allocator_sequence_witness :
    (allocRun env0 3 st0).1 = List.range' 7 3 ∧
    (allocRun env0 3 st0).1.Nodup ∧
    (allocRun env0 3 st0).2.2 = min 3 1 ∧
    (allocRun env0 3 st0).2.1.nextNonce = if 3 = 0 then none else some (7 + 3) :=
  nonce_allocator_sequence env0 7 3 st0 rfl rfl

/-- C2: every computed fee value is at least 1 wei and at most the
configured ceiling: the legacy gas price chosen by _chooseBaseGasPriceWei
(whether from the fixed override or from the suggested price and
multiplier), and the maxFeePerGas computed in the fee-market branch of
postSignal, for every base fee and priority fee. -/
theorem fee_values_within_ceiling (env : ChainEnv) (cfg : ClientConfig)
    (baseFee prioWei g : Nat) (hmax : 1 ≤ cfg.maxWei) :
    ((chooseBaseGasPriceWei env cfg).1 = .ok g → 1 ≤ g ∧ g ≤ cfg.maxWei) ∧
    (1 ≤ (feeMarketFees baseFee prioWei cfg.maxWei).1 ∧
      (feeMarketFees baseFee prioWei cfg.maxWei).1 ≤ cfg.maxWei) := by
  constructor
  · intro hok
    unfold chooseBaseGasPriceWei at hok
    rcases hfix : cfg.gasPriceFixedWei with _ | fixed
    · rw [hfix] at hok
      rcases hgp : env.gasPrice with e | s
      · rw [hgp] at hok
        simp at hok
      · rw [hgp] at hok
        simp only [Except.ok.injEq] at hok
        rw [← hok]
        exact clampBigInt_one_le hmax
    · rw [hfix] at hok
      simp only [Except.ok.injEq] at hok
      rw [← hok]
      exact clampBigInt_one_le hmax
  · exact clampBigInt_one_le hmax

/-- Witness for C2: with the fixture configuration (fixed price 2 gwei,
ceiling 50000 gwei) the chosen legacy price and a concrete fee-market max
fee are both within [1, ceiling]. -/
theorem fee_values_within_ceiling_witness :
    (1 ≤ (2000000000 : Nat) ∧ (2000000000 : Nat) ≤ cfg0.maxWei) ∧
    (1 ≤ (feeMarketFees 2000000000 1000000000 cfg0.maxWei).1 ∧
      (feeMarketFees 2000000000 1000000000 cfg0.maxWei).1 ≤ cfg0.maxWei) :=
  ⟨(fee_values_within_ceiling env0 cfg0 2000000000 1000000000 2000000000
      (by decide)).1 rfl,
    (fee_values_within_ceiling env0 cfg0 2000000000 1000000000 2000000000
      (by decide)).2⟩

/-- C8: in the fee-market branch, the declared maxPriorityFeePerGas never
exceeds the declared maxFeePerGas, and whenever the configured priority fee
would exceed the max fee it is clamped down to exactly the max fee, for
every base fee, priority fee, and positive ceiling. -/
theorem priority_fee_clamped_to_max_fee (baseFee prioWei maxWei : Nat)
    (hmax : 1 ≤ maxWei) :
    (feeMarketFees baseFee prioWei maxWei).2 ≤ (feeMarketFees baseFee prioWei maxWei).1 ∧
    ((feeMarketFees baseFee prioWei maxWei).1 < prioWei →
      (feeMarketFees baseFee prioWei maxWei).2 = (feeMarketFees baseFee prioWei maxWei).1) := by
  have hM := @clampBigInt_one_le (baseFee + prioWei) maxWei hmax
  have hP := @clampBigInt_one_le prioWei (clampBigInt (baseFee + prioWei) 1 maxWei) hM.1
  constructor
  · simpa [feeMarketFees] using hP.2
  · intro hlt
    simp only [feeMarketFees] at hlt ⊢
    exact clampBigInt_eq_hi hlt hM.1

/-- Witness for C8: with base fee 3, priority fee 2 and ceiling 10 the
computed pair satisfies both clauses. -/
theorem priority_fee_clamped_to_max_fee_witness :
    (feeMarketFees 3 2 10).2 ≤ (feeMarketFees 3 2 10).1 ∧
    ((feeMarketFees 3 2 10).1 < 2 →
      (feeMarketFees 3 2 10).2 = (feeMarketFees 3 2 10).1) :=
  priority_fee_clamped_to_max_fee 3 2 10 (by decide)

/-- C5 counterexample: the request ex5 carries the numeric position intent
2, which denotes neither Long (0) nor Short (1), yet validateSignal accepts
it unchanged: numbers and bigints bypass the target check entirely. -/
theorem numeric_target_bypasses_validation :
    validateSignal ex5 = .ok ⟨"s", "a", "", 2, 1, 1⟩ ∧ ex5.target = .num 2 := by
  constructor
  · rfl
  · rfl

set_option maxHeartbeats 2000000 in
/-- C5 (amended): validateSignal accepts exactly the inputs with trimmed
strategy of 1..30 characters, trimmed asset of 1..10 characters, trimmed
message of at most 280 characters, a position intent that is a number or a
bigint (any value, unchecked) or a string denoting long/short/0/1 after
trimming and lower-casing, a finite leverage in [1,5] and a finite weight
in [1,100]; every other input is rejected. -/
theorem validation_contract_exact (p : SignalInput) :
    (∃ c, validateSignal p = .ok c) ↔ specValidAmended p := by
  rcases p with ⟨ps, pa, pm, pt, pl, pw⟩
  cases pt <;> rcases pl with _ | l <;> rcases pw with _ | w <;>
    simp only [validateSignal, specValidAmended, targetAccepted, normalizeTarget] <;>
    split_ifs <;> (try simp_all) <;> intros <;> (try casesm* _ ∨ _) <;>
    first
      | omega
      | (exfalso; omega)
      | linarith
      | (and_intros <;> first | omega | linarith | tauto)

set_option maxRecDepth 8000 in
/-- C4 counterexample: the request ex4 has a message of 281 characters
(all spaces), which exceeds 280 characters, yet postSignal does NOT fail
validation: the message is trimmed before the length check, validation
passes, and network calls are issued (the RPC trace of the run is
non-empty). -/
theorem overlong_message_reaches_network :
    jsLength ex4.message = 281 ∧ (postSignal env0 cfg0 ex4 st0).2.2 ≠ [] := by
  constructor
  · have h : ex4.message.data = List.replicate 281 ' ' := rfl
    simp [jsLength, h]
  · decide

/-- C4 (amended): for every submission request whose message still exceeds
280 characters after trimming, postSignal fails with a validation error
before any network call is made: the RPC trace is empty and the client
state (nonce cursor and all session caches) is returned unchanged. -/
theorem overlong_trimmed_message_rejected (env : ChainEnv) (cfg : ClientConfig)
    (p : SignalInput) (st : ClientState)
    (h : 280 < jsLength (jsTrim p.message)) :
    ∃ m, postSignal env cfg p st = (.error (.validation m), st, []) := by
  have hm : validateSignal p = .error (.validation "Invalid strategy: must be 1-30 chars") ∨
      validateSignal p = .error (.validation "Invalid asset: must be 1-10 chars") ∨
      validateSignal p = .error (.validation "Invalid message: max 280 chars") := by
    simp only [validateSignal]
    split_ifs with h1 h2
    · exact .inl rfl
    · exact .inr (.inl rfl)
    · exact .inr (.inr rfl)
  rcases hm with hv | hv | hv
  · exact ⟨"Invalid strategy: must be 1-30 chars", by simp only [postSignal, hv]⟩
  · exact ⟨"Invalid asset: must be 1-10 chars", by simp only [postSignal, hv]⟩
  · exact ⟨"Invalid message: max 280 chars", by simp only [postSignal, hv]⟩

set_option maxRecDepth 8000 in
/-- Witness for C4 (amended) at a message of 281 letters. -/
theorem overlong_trimmed_message_rejected_witness :
    ∃ m, postSignal env0 cfg0 ex4b st0 = (.error (.validation m), st0, []) :=
  overlong_trimmed_message_rejected env0 cfg0 ex4b st0 (by decide)

/-- C6 counterexample: on the nonce-allocation fetch path
(_getTransactionCount), a pending-tag failure that is NOT a request-shape
rejection (invalidRequest = false, e.g. a timeout) does not escalate: the
ladder silently retries with the latest tag and returns its value.  And
when all three shapes are rejected with request-shape errors, the last
error escalates without any explicit-block-number rung being tried. -/
theorem nonshape_error_falls_through :
    c6Oracle CountParam.pending = .error ⟨false⟩ ∧
    getTransactionCount c6Oracle = (.ok 5, [.pending, .latest]) ∧
    getTransactionCount c6AllFail = (.error ⟨true⟩, [.pending, .latest, .omitted]) :=
  ⟨rfl, rfl, rfl⟩

/-- C6 (amended): the transaction count used by the first nonce allocation
is fetched by _getTransactionCount, a three-rung ladder (pending tag,
latest tag, tag omitted) in which EVERY failure falls through to the next
rung, the first success is returned, the last rung error escalates after
all three rungs fail, and no explicit-block-number rung is ever tried on
this path.  (The four-rung, request-shape-gated ladder described by the
spec exists in _getNonce, which nonce allocation does not use.) -/
theorem tx_count_ladder (txCount : CountParam → Except RpcErr Nat) :
    (∀ n, txCount .pending = .ok n →
      getTransactionCount txCount = (.ok n, [.pending])) ∧
    (∀ e n, txCount .pending = .error e → txCount .latest = .ok n →
      getTransactionCount txCount = (.ok n, [.pending, .latest])) ∧
    (∀ e e' n, txCount .pending = .error e → txCount .latest = .error e' →
      txCount .omitted = .ok n →
      getTransactionCount txCount = (.ok n, [.pending, .latest, .omitted])) ∧
    (∀ e e' e'', txCount .pending = .error e → txCount .latest = .error e' →
      txCount .omitted = .error e'' →
      getTransactionCount txCount = (.error e'', [.pending, .latest, .omitted])) ∧
    CountParam.byBlock ∉ (getTransactionCount txCount).2 := by
  refine ⟨?_, ?_, ?_, ?_, ?_⟩
  · intro n h
    unfold getTransactionCount
    rw [h]
  · intro e n hp hl
    unfold getTransactionCount
    rw [hp, hl]
  · intro e e' n hp hl ho
    unfold getTransactionCount
    rw [hp, hl, ho]
  · intro e e' e'' hp hl ho
    unfold getTransactionCount
    rw [hp, hl, ho]
  · unfold getTransactionCount
    rcases hp : txCount .pending with e | n
    · rcases hl : txCount .latest with e' | n'
      · rcases ho : txCount .omitted with e'' | n'' <;> simp
      · simp
    · simp

/-- Witness for C6 (amended): the healthy oracle answers the pending rung
directly and only that shape is tried. -/
theorem tx_count_ladder_witness :
    getTransactionCount env7.txCount = (.ok 0, [.pending]) :=
  (tx_count_ladder env7.txCount).1 0 rfl

/-- C9 counterexample: an endpoint URL with the ftp scheme neither begins
with http:// nor https://, yet the ChainSignalsClient constructor does not
reject it: the only scheme check performed is the WebSocket regular
expression. -/
theorem ftp_scheme_not_rejected :
    beginsWithHttp "ftp://node.example" = false ∧
    constructorRejectsUrl "ftp://node.example" = false :=
  ⟨rfl, rfl⟩

/-- C9 (amended): the constructor URL check rejects exactly the empty URL
and URLs whose scheme matches the WebSocket pattern wss?:// (case
insensitively); every HTTP or HTTPS URL passes the check, and URLs of any
other scheme are not rejected. -/
theorem url_scheme_check (url : String) :
    (wsSchemeRejected url = true → constructorRejectsUrl url = true) ∧
    (beginsWithHttp url = true → constructorRejectsUrl url = false) := by
  constructor
  · intro h
    simp [constructorRejectsUrl, h]
  · intro h
    have hhttp : "http://".data = ['h', 't', 't', 'p', ':', '/', '/'] := rfl
    have hhttps : "https://".data = ['h', 't', 't', 'p', 's', ':', '/', '/'] := rfl
    have hws : "ws://".data = ['w', 's', ':', '/', '/'] := rfl
    have hwss : "wss://".data = ['w', 's', 's', ':', '/', '/'] := rfl
    rcases hu : url.data with _ | ⟨c, cs⟩
    · exfalso
      simp [beginsWithHttp, startsWithCI, hu, hhttp, hhttps, hasPre] at h
    · have hc : 'h' = asciiLower c := by
        simp [beginsWithHttp, startsWithCI, hu, hhttp, hhttps, hasPre] at h
        rcases h with h | h
        · exact h.1
        · exact h.1
      simp [constructorRejectsUrl, wsSchemeRejected, startsWithCI, hu, hws, hwss,
        hasPre, ← hc]

/-- Witness for C9 (amended): a WebSocket URL is rejected and an HTTPS URL
passes. -/
theorem url_scheme_check_witness :
    constructorRejectsUrl "ws://node.example" = true ∧
    constructorRejectsUrl "https://node.example" = false :=
  ⟨(url_scheme_check "ws://node.example").1 rfl,
    (url_scheme_check "https://node.example").2 rfl⟩

theorem sendAndFinish_eq (env : ChainEnv) (txReq : TxRequest) (st : ClientState)
    (tr : List RpcMethod) :
    sendAndFinish env txReq st tr =
      match env.sendRaw with
      | .error e => (.error (.rpc e), st, tr ++ [.sendRawTransaction])
      | .ok txHash =>
        (.ok (.broadcastStatus txHash txReq.nonce txReq.chainId), st,
          tr ++ [.sendRawTransaction]) := by
  unfold sendAndFinish receiptWaitGuard receiptTimeoutSecResolved
  rcases env.sendRaw with e | h <;> simp

theorem sendAndFinish_state (env : ChainEnv) (txReq : TxRequest) (st : ClientState)
    (tr : List RpcMethod) : (sendAndFinish env txReq st tr).2.1 = st := by
  rw [sendAndFinish_eq]
  rcases env.sendRaw with e | h <;> simp

theorem sendAndFinish_trace (env : ChainEnv) (txReq : TxRequest) (st : ClientState)
    (tr : List RpcMethod) :
    (sendAndFinish env txReq st tr).2.2 = tr ++ [.sendRawTransaction] := by
  rw [sendAndFinish_eq]
  rcases env.sendRaw with e | h <;> simp

theorem sendAndFinish_ok (env : ChainEnv) (txReq : TxRequest) (st : ClientState)
    (tr : List RpcMethod) (r : PostOutcome)
    (h : (sendAndFinish env txReq st tr).1 = .ok r) :
    ∃ hsh, r = .broadcastStatus hsh txReq.nonce txReq.chainId := by
  rw [sendAndFinish_eq] at h
  rcases hs : env.sendRaw with e | hsh <;> rw [hs] at h <;> simp at h
  exact ⟨hsh, h.symm⟩

theorem getChainId_cache (env : ChainEnv) (cfg : ClientConfig) (st : ClientState) :
    (getChainId env cfg st).2.1.traderSignalIdsCache = st.traderSignalIdsCache ∧
    (getChainId env cfg st).2.1.signalByIdCache = st.signalByIdCache ∧
    (getChainId env cfg st).2.1.nextNonce = st.nextNonce := by
  unfold getChainId getRemoteChainId
  split_ifs
  · simp
  · rcases hr : st.remoteChainId with _ | c
    · rcases hc : env.chainIdResult with e | o
      · simp
      · rcases o <;> simp
    · simp

theorem getChainId_trace (env : ChainEnv) (cfg : ClientConfig) (st : ClientState) :
    ∀ m ∈ (getChainId env cfg st).2.2, m = RpcMethod.chainIdQ := by
  unfold getChainId getRemoteChainId
  split_ifs
  · simp
  · rcases hr : st.remoteChainId with _ | c
    · rcases hc : env.chainIdResult with e | o
      · simp
      · rcases o <;> simp
    · simp

theorem allocNonce_cache (env : ChainEnv) (st : ClientState) :
    (allocNonce env st).2.1.traderSignalIdsCache = st.traderSignalIdsCache ∧
    (allocNonce env st).2.1.signalByIdCache = st.signalByIdCache := by
  unfold allocNonce
  rcases hn : st.nextNonce with _ | n
  · rcases hg : getTransactionCount env.txCount with ⟨r, ps⟩
    rcases r <;> simp
  · simp

theorem allocNonce_trace (env : ChainEnv) (st : ClientState) :
    ∀ m ∈ (allocNonce env st).2.2, m = RpcMethod.getTransactionCount := by
  unfold allocNonce
  rcases hn : st.nextNonce with _ | n
  · rcases hg : getTransactionCount env.txCount with ⟨r, ps⟩
    rcases r <;> simp
  · simp

theorem detectSupports1559_cache (env : ChainEnv) (cfg : ClientConfig) (st : ClientState) :
    (detectSupports1559 env cfg st).2.1.traderSignalIdsCache = st.traderSignalIdsCache ∧
    (detectSupports1559 env cfg st).2.1.signalByIdCache = st.signalByIdCache ∧
    (detectSupports1559 env cfg st).2.1.nextNonce = st.nextNonce := by
  unfold detectSupports1559
  rcases hs : st.supports1559 with _ | b
  · rcases cfg.txTypePref <;> simp
  · simp

theorem detectSupports1559_trace (env : ChainEnv) (cfg : ClientConfig) (st : ClientState) :
    ∀ m ∈ (detectSupports1559 env cfg st).2.2, m = RpcMethod.feeHistory := by
  unfold detectSupports1559
  rcases hs : st.supports1559 with _ | b
  · rcases cfg.txTypePref <;> simp
  · simp

theorem chooseBaseGasPriceWei_trace (env : ChainEnv) (cfg : ClientConfig) :
    ∀ m ∈ (chooseBaseGasPriceWei env cfg).2, m = RpcMethod.gasPrice := by
  unfold chooseBaseGasPriceWei
  rcases hf : cfg.gasPriceFixedWei with _ | fixed
  · rcases hg : env.gasPrice with e | s <;> simp
  · simp

theorem feePhaseAndSend_state (env : ChainEnv) (cfg : ClientConfig) (nonce : Nat)
    (chainId : Int) (gl vw : Nat) (st : ClientState) (tr : List RpcMethod) :
    (feePhaseAndSend env cfg nonce chainId gl vw st tr).2.1 =
      (detectSupports1559 env cfg st).2.1 := by
  unfold feePhaseAndSend
  cases h1559 : (detectSupports1559 env cfg st).1
  · rcases hc : chooseBaseGasPriceWei env cfg with ⟨r, trF⟩
    rcases r <;> simp [h1559, hc, sendAndFinish_state]
  · rcases hb : env.baseFee with _ | b
    · rcases hg : env.gasPrice with e | s <;>
        simp [h1559, hb, hg, sendAndFinish_state]
    · simp [h1559, hb, sendAndFinish_state]

theorem detectSupports1559_traceEq (env : ChainEnv) (cfg : ClientConfig)
    (st : ClientState) :
    (detectSupports1559 env cfg st).2.2 = [] ∨
    (detectSupports1559 env cfg st).2.2 = [RpcMethod.feeHistory] := by
  unfold detectSupports1559
  rcases hs : st.supports1559 with _ | b
  · rcases cfg.txTypePref <;> simp
  · simp

theorem chooseBaseGasPriceWei_traceEq (env : ChainEnv) (cfg : ClientConfig) :
    (chooseBaseGasPriceWei env cfg).2 = [] ∨
    (chooseBaseGasPriceWei env cfg).2 = [RpcMethod.gasPrice] := by
  unfold chooseBaseGasPriceWei
  rcases hf : cfg.gasPriceFixedWei with _ | fixed
  · rcases hg : env.gasPrice with e | s <;> simp
  · simp

theorem feePhaseAndSend_ok (env : ChainEnv) (cfg : ClientConfig) (nonce : Nat)
    (chainId : Int) (gl vw : Nat) (st : ClientState) (tr : List RpcMethod)
    (r : PostOutcome)
    (h : (feePhaseAndSend env cfg nonce chainId gl vw st tr).1 = .ok r) :
    ∃ hsh, r = .broadcastStatus hsh nonce chainId := by
  simp only [feePhaseAndSend] at h
  cases h1559 : (detectSupports1559 env cfg st).1 <;> simp only [h1559] at h
  · rcases hc : chooseBaseGasPriceWei env cfg with ⟨rc, trF⟩
    simp only [Bool.false_eq_true, if_false, hc] at h
    rcases rc with e | g
    · simp at h
    · exact sendAndFinish_ok env _ _ _ r h
  · simp only [if_true] at h
    rcases hb : env.baseFee with _ | b <;> simp only [hb] at h
    · rcases hg : env.gasPrice with e | s <;> simp only [hg] at h
      · simp at h
      · exact sendAndFinish_ok env _ _ _ r h
    · exact sendAndFinish_ok env _ _ _ r h

theorem feePhaseAndSend_trace (env : ChainEnv) (cfg : ClientConfig) (nonce : Nat)
    (chainId : Int) (gl vw : Nat) (st : ClientState) (tr : List RpcMethod) :
    ∀ m ∈ (feePhaseAndSend env cfg nonce chainId gl vw st tr).2.2,
      m ∈ tr ∨ m = RpcMethod.feeHistory ∨ m = RpcMethod.gasPrice ∨
        m = RpcMethod.sendRawTransaction := by
  intro m hm
  simp only [feePhaseAndSend] at hm
  have hdEq := detectSupports1559_traceEq env cfg st
  cases h1559 : (detectSupports1559 env cfg st).1 <;>
    simp only [h1559, Bool.false_eq_true, if_false, if_true] at hm
  · rcases hc : chooseBaseGasPriceWei env cfg with ⟨rc, trF⟩
    have hcf : trF = [] ∨ trF = [RpcMethod.gasPrice] := by
      have h0 := chooseBaseGasPriceWei_traceEq env cfg
      rw [hc] at h0
      simpa using h0
    simp only [hc] at hm
    rcases rc with e | g
    · rcases hdEq with hd | hd <;> rcases hcf with hcf | hcf <;>
        simp [hd, hcf] at hm <;> tauto
    · rw [sendAndFinish_trace] at hm
      rcases hdEq with hd | hd <;> rcases hcf with hcf | hcf <;>
        simp [hd, hcf] at hm <;> tauto
  · rcases hb : env.baseFee with _ | b <;> simp only [hb] at hm
    · rcases hg : env.gasPrice with e | s <;> simp only [hg] at hm
      · rcases hdEq with hd | hd <;> simp [hd] at hm <;> tauto
      · rw [sendAndFinish_trace] at hm
        rcases hdEq with hd | hd <;> simp [hd] at hm <;> tauto
    · rw [sendAndFinish_trace] at hm
      rcases hdEq with hd | hd <;> simp [hd] at hm <;> tauto

theorem postSignal_caches (env : ChainEnv) (cfg : ClientConfig) (p : SignalInput)
    (st : ClientState) :
    (postSignal env cfg p st).2.1.traderSignalIdsCache = st.traderSignalIdsCache ∧
    (postSignal env cfg p st).2.1.signalByIdCache = st.signalByIdCache := by
  simp only [postSignal]
  rcases hv : validateSignal p with e | c
  · simp
  · rcases ha : allocNonce env (getChainId env cfg st).2.1 with ⟨ra, st2, tr2⟩
    have hae := allocNonce_cache env (getChainId env cfg st).2.1
    rw [ha] at hae
    simp only at hae
    have hge := getChainId_cache env cfg st
    rcases ra with e | nonce
    · simp only
      exact ⟨hae.1.trans hge.1, hae.2.trans hge.2.1⟩
    · simp only
      rw [feePhaseAndSend_state]
      have hde := detectSupports1559_cache env cfg st2
      exact ⟨hde.1.trans (hae.1.trans hge.1), hde.2.1.trans (hae.2.trans hge.2.1)⟩

/-- C10: no postSignal run ever updates or invalidates the per-account
signal-id cache or the per-id signal cache; and once getTraderSignalIds has
cached the id list of an account, a later call returns the identical cached list
with no endpoint query and no state change.  Consequently a signal posted
afterwards in the same process is never visible to subsequent
getRecentSignalsForStrategy calls for that account. -/
theorem post_signal_preserves_read_caches (env : ChainEnv) (cfg : ClientConfig)
    (p : SignalInput) (st : ClientState) (trader : String) (ids : List Nat)
    (hne : jsTrim trader ≠ "")
    (hhit : assocGet (jsTrim trader) st.traderSignalIdsCache = some ids) :
    (postSignal env cfg p st).2.1.traderSignalIdsCache = st.traderSignalIdsCache ∧
    (postSignal env cfg p st).2.1.signalByIdCache = st.signalByIdCache ∧
    getTraderSignalIds env st trader = (.ok ids, st, []) := by
  refine ⟨(postSignal_caches env cfg p st).1, (postSignal_caches env cfg p st).2, ?_⟩
  simp only [getTraderSignalIds]
  rw [if_neg hne, hhit]

/-- Witness for C10: a client whose state already caches the id list of
account 0xT runs postSignal; both read caches are unchanged and the cached
list is served without a query. -/
theorem post_signal_preserves_read_caches_witness :
    (postSignal env0 cfg0 p0 st10).2.1.traderSignalIdsCache = st10.traderSignalIdsCache ∧
    (postSignal env0 cfg0 p0 st10).2.1.signalByIdCache = st10.signalByIdCache ∧
    getTraderSignalIds env0 st10 "0xT" = (.ok [0, 1], st10, []) :=
  post_signal_preserves_read_caches env0 cfg0 p0 st10 "0xT" [0, 1] (by decide) rfl

/-- C3 (code bug): even when the configuration requests a receipt wait
(waitReceipt = true, from CHAIN_WAIT_RECEIPT), every successful postSignal
run returns the bare broadcast outcome: it never polls
eth_getTransactionReceipt (so no Mined-Success/Mined-Revert/Timed-Out
classification can happen) and never calls eth_getTransactionByHash (so an
unqueryable broadcast is never surfaced as Broadcast-Unconfirmed).  The
guard reads this.waitForReceipt — the method, which is always truthy — and
this.receiptTimeoutSec, which is never assigned, so the wait exits
immediately with status "broadcast"; _waitForTxInNode is dead code. -/
theorem receipt_wait_ignored (env : ChainEnv) (cfg : ClientConfig) (p : SignalInput)
    (st : ClientState) (r : PostOutcome)
    (hw : cfg.waitReceipt = true)
    (hok : (postSignal env cfg p st).1 = .ok r) :
    (∃ hsh n c, r = .broadcastStatus hsh n c) ∧
    RpcMethod.getTransactionReceipt ∉ (postSignal env cfg p st).2.2 ∧
    RpcMethod.getTransactionByHash ∉ (postSignal env cfg p st).2.2 := by
  simp only [postSignal] at hok ⊢
  rcases hv : validateSignal p with e | c <;> simp only [hv] at hok ⊢
  · simp at hok
  · rcases ha : allocNonce env (getChainId env cfg st).2.1 with ⟨ra, st2, tr2⟩
    have hat := allocNonce_trace env (getChainId env cfg st).2.1
    rw [ha] at hat
    simp only at hat
    simp only [ha] at hok ⊢
    rcases ra with e | nonce
    · simp at hok
    · have hpref : ∀ m, m ∈ (getChainId env cfg st).2.2 ++ tr2 ++
          [RpcMethod.estimateGas, RpcMethod.ethCall] →
          m = RpcMethod.chainIdQ ∨ m = RpcMethod.getTransactionCount ∨
          m = RpcMethod.estimateGas ∨ m = RpcMethod.ethCall := by
        intro m hm
        simp [List.mem_append] at hm
        rcases hm with hm | hm | hm | hm
        · exact .inl (getChainId_trace env cfg st m hm)
        · exact .inr (.inl (hat m hm))
        · exact .inr (.inr (.inl hm))
        · exact .inr (.inr (.inr hm))
      refine ⟨?_, ?_, ?_⟩
      · obtain ⟨hsh, hr⟩ := feePhaseAndSend_ok env cfg nonce (getChainId env cfg st).1
          _ _ st2 _ r hok
        exact ⟨hsh, nonce, (getChainId env cfg st).1, hr⟩
      · intro hmem
        rcases feePhaseAndSend_trace env cfg nonce (getChainId env cfg st).1
            _ _ st2 _ _ hmem with h | h | h | h
        · rcases hpref _ h with h | h | h | h <;> simp at h
        · simp at h
        · simp at h
        · simp at h
      · intro hmem
        rcases feePhaseAndSend_trace env cfg nonce (getChainId env cfg st).1
            _ _ st2 _ _ hmem with h | h | h | h
        · rcases hpref _ h with h | h | h | h <;> simp at h
        · simp at h
        · simp at h
        · simp at h

/-- Witness for C3: a concrete run with CHAIN_WAIT_RECEIPT=true against an
endpoint that would deliver a receipt still yields the bare broadcast
outcome and a trace with no receipt or by-hash lookups. -/
theorem receipt_wait_ignored_witness :
    (∃ hsh n c, (PostOutcome.broadcastStatus "0xabc" 7 167012 : PostOutcome) =
      .broadcastStatus hsh n c) ∧
    RpcMethod.getTransactionReceipt ∉ (postSignal env0 cfg0 p0 st0).2.2 ∧
    RpcMethod.getTransactionByHash ∉ (postSignal env0 cfg0 p0 st0).2.2 :=
  receipt_wait_ignored env0 cfg0 p0 st0 (.broadcastStatus "0xabc" 7 167012) rfl rfl

theorem assocGet_mem {κ ν : Type} [DecidableEq κ] (k : κ) (l : List (κ × ν)) (v : ν)
    (h : assocGet k l = some v) : (k, v) ∈ l := by
  induction l with
  | nil => simp [assocGet] at h
  | cons pr rest ih =>
    rcases pr with ⟨k', v'⟩
    unfold assocGet at h
    split_ifs at h with hk
    · simp at h
      subst hk
      subst h
      exact List.mem_cons_self _ _
    · exact List.mem_cons_of_mem _ (ih h)

theorem getSignalById_faithful (env : ChainEnv) (st : ClientState) (id : Nat)
    (h : cacheFaithful env st.signalByIdCache) :
    (getSignalById env st id).1 = env.signalById id ∧
    cacheFaithful env (getSignalById env st id).2.1.signalByIdCache := by
  simp only [cacheFaithful] at h ⊢
  unfold getSignalById
  rcases hc : assocGet id st.signalByIdCache with _ | s
  · refine ⟨by simp, ?_⟩
    simp only
    intro pr hpr
    rcases List.mem_cons.1 hpr with hpr | hpr
    · subst hpr
      rfl
    · exact h pr hpr
  · refine ⟨?_, by simpa using h⟩
    simpa using h (id, s) (assocGet_mem id _ s hc)

theorem collectRecent_eq (env : ChainEnv) (strategy : String) :
    ∀ (ids : List Nat) (want : Nat) (st : ClientState),
      cacheFaithful env st.signalByIdCache →
      (collectRecent env strategy ids want st).1 =
        pureWalk env.signalById strategy ids want ∧
      cacheFaithful env (collectRecent env strategy ids want st).2.1.signalByIdCache := by
  intro ids
  induction ids with
  | nil =>
    intro want st h
    exact ⟨rfl, by simpa [collectRecent] using h⟩
  | cons id rest ih =>
    intro want st h
    cases want with
    | zero => exact ⟨rfl, by simpa [collectRecent] using h⟩
    | succ w =>
      have hg := getSignalById_faithful env st id h
      have ih1 := ih (w + 1) (getSignalById env st id).2.1 hg.2
      have ih2 := ih w (getSignalById env st id).2.1 hg.2
      simp only [collectRecent, pureWalk, hg.1]
      split_ifs with hcond
      · exact ⟨by simpa using ih1.1, by simpa using ih1.2⟩
      · exact ⟨by simp [ih2.1], by simpa using ih2.2⟩

theorem takeLast_nil {α : Type} (k : Nat) : takeLast k ([] : List α) = [] := by
  simp [takeLast]

theorem takeLast_zero {α : Type} (l : List α) : takeLast 0 l = [] := by
  simp [takeLast]

theorem takeLast_succ_append {α : Type} (w : Nat) (A : List α) (x : α) :
    takeLast (w + 1) (A ++ [x]) = takeLast w A ++ [x] := by
  unfold takeLast
  have h1 : (A ++ [x]).length = A.length + 1 := by simp
  rw [h1]
  have h2 : A.length + 1 - (w + 1) = A.length - w := by omega
  rw [h2]
  exact List.drop_append_of_le_length (by omega)

theorem pureWalk_reverse (f : Nat → StoredSignal) (strategy : String) :
    ∀ (m : List Nat) (want : Nat),
      (pureWalk f strategy m want).reverse =
        takeLast want ((m.reverse.filter
            (fun id => jsTrim (f id).strategy == strategy)).map
          (fun id => entryOf (f id))) := by
  intro m
  induction m with
  | nil => intro want; simp [pureWalk, takeLast]
  | cons id rest ih =>
    intro want
    cases want with
    | zero => simp [pureWalk, takeLast_zero]
    | succ w =>
      simp only [pureWalk, List.reverse_cons, List.filter_append, List.map_append]
      by_cases hcond : jsTrim (f id).strategy = strategy
      · rw [if_neg (by simpa using hcond)]
        have hf : List.filter (fun i => jsTrim (f i).strategy == strategy) [id] = [id] := by
          simp [hcond]
        rw [hf]
        simp only [List.reverse_cons, List.map_cons, List.map_nil]
        rw [ih w, takeLast_succ_append]
      · rw [if_pos (by simpa using hcond)]
        have hf : List.filter (fun i => jsTrim (f i).strategy == strategy) [id] = [] := by
          simp [hcond]
        rw [hf]
        simp only [List.map_nil, List.append_nil]
        exact ih (w + 1)

theorem getTraderSignalIds_faithful (env : ChainEnv) (st : ClientState) (trader : String)
    (hids : ∀ pr ∈ st.traderSignalIdsCache, pr.2 = env.traderIds pr.1)
    (htr : jsTrim trader = trader) (hne : trader ≠ "") :
    (getTraderSignalIds env st trader).1 = .ok (env.traderIds trader) ∧
    (getTraderSignalIds env st trader).2.1.signalByIdCache = st.signalByIdCache := by
  simp only [getTraderSignalIds, htr]
  rw [if_neg hne]
  rcases hc : assocGet trader st.traderSignalIdsCache with _ | ids
  · simp
  · have hv := hids (trader, ids) (assocGet_mem trader _ ids hc)
    simp only at hv
    simp [hv]

/-- C7 (amended): recentEntries returns exactly the last min(count, number
of matches) elements, oldest first, of the account id list filtered to the
entries whose trimmed strategy label equals the trimmed query label (the
code matches on trimmed labels, not on exact equality); it returns the
empty sequence when the count is not positive, the trimmed query label is
empty, the account has no ids, or nothing matches. -/
theorem recent_entries_characterization (env : ChainEnv) (cfg : ClientConfig)
    (strategyName : String) (n : Int) (trader : String) (st : ClientState)
    (hids : ∀ pr ∈ st.traderSignalIdsCache, pr.2 = env.traderIds pr.1)
    (hsig : cacheFaithful env st.signalByIdCache)
    (htr : jsTrim trader = trader) (hne : trader ≠ "") :
    (getRecentSignalsForStrategy env cfg strategyName n trader st).1 =
      .ok (recentEntriesSpec env strategyName n trader) := by
  simp only [getRecentSignalsForStrategy, recentEntriesSpec]
  have haddr : (if trader = "" then cfg.walletAddress else trader) = trader := if_neg hne
  by_cases hw : (max 0 n).toNat = 0
  · rw [if_pos hw]
    by_cases hstrat : jsTrim strategyName = ""
    · rw [if_pos hstrat]
    · rw [if_neg hstrat, hw, takeLast_zero]
  · rw [if_neg hw]
    by_cases hstrat : jsTrim strategyName = ""
    · rw [if_pos hstrat, if_pos hstrat]
    · rw [if_neg hstrat, if_neg hstrat, haddr, htr]
      rcases hg : getTraderSignalIds env st trader with ⟨rg, st', trg⟩
      have hfa := getTraderSignalIds_faithful env st trader hids htr hne
      rw [hg] at hfa
      simp only at hfa
      obtain ⟨hfa1, hfa2⟩ := hfa
      subst hfa1
      by_cases hids0 : env.traderIds trader = []
      · rw [hids0]
        simp [takeLast_nil]
      · simp only [hids0, if_false, if_neg hids0]
        have hfaith : cacheFaithful env st'.signalByIdCache := by
          rw [hfa2]
          exact hsig
        have hcr := (collectRecent_eq env (jsTrim strategyName)
          (env.traderIds trader).reverse ((max 0 n).toNat) st' hfaith).1
        simp only [hcr, pureWalk_reverse, List.reverse_reverse]

/-- C7 counterexample: with one ledger entry whose stored strategy label is
"BTC " (trailing space), a query for the label "BTC" returns that entry
even though its strategy label does not exactly match the query: the code
compares labels after trimming. -/
theorem trailing_space_label_matched :
    (getRecentSignalsForStrategy env7 cfg0 "BTC" 1 "0xT" st0).1 =
      .ok [⟨7, "X", 0, "m"⟩] ∧
    (env7.signalById 0).strategy ≠ "BTC" := by
  constructor
  · rfl
  · decide

/-- Witness for C7 (amended): the five-entry fixture (labels A at ids 0, 2,
4 and B at ids 1, 3) queried for label A with count 5 from a fresh client
satisfies the characterization. -/
theorem recent_entries_characterization_witness :
    (getRecentSignalsForStrategy env7w cfg0 "A" 5 "0xT" st0).1 =
      .ok (recentEntriesSpec env7w "A" 5 "0xT") :=
  recent_entries_characterization env7w cfg0 "A" 5 "0xT" st0
    (by intro pr h; simp [st0] at h)
    (by intro pr h; simp [st0] at h)
    (by decide) (by decide)

/-- Witness for C5 (amended): a fully valid concrete request satisfies the
amended validation contract, via the accepted run of validateSignal. -/
theorem validation_contract_exact_witness : specValidAmended p0 :=
  (validation_contract_exact p0).1
    ⟨⟨"BTC gpt-4.1-mini v1", "BTC", "going long", 0, 1, 100⟩, rfl⟩
